import Mathlib

/-!
Verification of the RBM pre-training core of `src/rbm.cu` (libdnn).

The CUDA source is shallowly embedded over a functional matrix type with
rational entries.  External collaborators declared by the specification
(the dense-matrix library, the batch partition utility, `linearRegression`,
`sigmoid`, `sqrt`, and the device random-number generator) are not part of
`src/`; they are modelled from the spec as explicit Lean definitions or as
oracle parameters (`sig`, `sqrtQ`, `rng`, `winit`) threaded through the
embedded functions.  Every definition that embeds code of `src/rbm.cu`
cites the lines it is translated from.
-/

/-- A dense matrix with rational entries.  `entry i j` is row `i`, column `j`;
entries outside `rows × cols` are phantom values that no embedded operation
observes through in-bounds reads.  Models both the device-resident `mat`
and the host-resident `hmat` of the matrix library. -/
structure Mat where
  rows : Nat
  cols : Nat
  entry : Nat → Nat → ℚ

/-- Modelled from the spec: matrix product of the external dense-matrix
library (`visible * W` etc. in `rbm.cu`). -/
def Mat.mul (A B : Mat) : Mat :=
  { rows := A.rows, cols := B.cols,
    entry := fun i j => ((List.range A.cols).map fun k => A.entry i k * B.entry k j).sum }

/-- Modelled from the spec: transpose (`~A` in `rbm.cu`). -/
def Mat.transpose (A : Mat) : Mat :=
  { rows := A.cols, cols := A.rows, entry := fun i j => A.entry j i }

/-- Modelled from the spec: elementwise application of a scalar function
(used for the external `sigmoid`). -/
def Mat.map (f : ℚ → ℚ) (A : Mat) : Mat :=
  { rows := A.rows, cols := A.cols, entry := fun i j => f (A.entry i j) }

/-- Modelled from the spec: elementwise sum (`W += dW`). -/
def Mat.add (A B : Mat) : Mat :=
  { rows := A.rows, cols := A.cols, entry := fun i j => A.entry i j + B.entry i j }

/-- Modelled from the spec: elementwise difference (`positive - negative`, `v1 - v2`). -/
def Mat.sub (A B : Mat) : Mat :=
  { rows := A.rows, cols := A.cols, entry := fun i j => A.entry i j - B.entry i j }

/-- Modelled from the spec: scalar multiple (`lr * (positive - negative)`). -/
def Mat.smul (c : ℚ) (A : Mat) : Mat :=
  { rows := A.rows, cols := A.cols, entry := fun i j => c * A.entry i j }

/-- Modelled from the spec: the squared Frobenius norm
(`pow(nrm2(x), 2.0f)` in `rbm.cu` line 216). -/
def Mat.sqNorm (A : Mat) : ℚ :=
  ((List.range A.rows).map fun i =>
    ((List.range A.cols).map fun j => A.entry i j * A.entry i j).sum).sum

/-- Modelled from the spec: `ext::max(data) <= 1 && ext::min(data) >= 0`
(`rbm.cu` line 152) — every in-bounds entry lies in `[0, 1]`. -/
def Mat.inRange01 (A : Mat) : Bool :=
  (List.range A.rows).all fun i =>
    (List.range A.cols).all fun j =>
      decide (0 ≤ A.entry i j) && decide (A.entry i j ≤ 1)

/-- The RBM type enumeration (`rbm.h`, used throughout `rbm.cu`). -/
inductive RBM_TYPE where
  | GAUSSIAN_BERNOULLI : RBM_TYPE
  | BERNOULLI_BERNOULLI : RBM_TYPE
deriving DecidableEq

export RBM_TYPE (GAUSSIAN_BERNOULLI BERNOULLI_BERNOULLI)

/-- Modelled from the spec: `fillLastColumnWith(x, v)` of the matrix
library — overwrite the designated (last) column with a constant. -/
def fillLastColumnWith (A : Mat) (v : ℚ) : Mat :=
  { rows := A.rows, cols := A.cols,
    entry := fun i j => if j = A.cols - 1 then v else A.entry i j }

/-- `fill_bias` macro, `rbm.cu` line 4: set the bias column to `1.0`. -/
def fill_bias (A : Mat) : Mat := fillLastColumnWith A 1

/-- Modelled from the spec: `getBatchData(X, itr)` — the batch view of
columns `[offset, offset + width)` of the host matrix `X`, transposed to a
device matrix of shape `width × X.rows` (one data sample per row), as
required by the products `visible * W` in `rbm.cu`. -/
def getBatchData (X : Mat) (offset width : Nat) : Mat :=
  { rows := width, cols := X.rows, entry := fun i j => X.entry j (offset + i) }

/-- Modelled from the spec: the `Batches(batchSize, nData)` partition
utility — contiguous `(offset, width)` windows covering `nData` columns in
order; the final window may be narrower than `batchSize`. -/
def batchList (batchSize nData : Nat) : List (Nat × Nat) :=
  (List.range ((nData + batchSize - 1) / batchSize)).map fun k =>
    (k * batchSize, min batchSize (nData - k * batchSize))

/-- The per-element sampling operation of `sampling_kernel`
(`rbm.cu` lines 60-66): `gaussian` adds a normal draw, `bernoulli`
binarizes against a uniform draw (`x = (float)(x >= curand_uniform)`).
The draw `r` is supplied by the random oracle. -/
def sampleOp (t : RBM_TYPE) (x r : ℚ) : ℚ :=
  match t with
  | GAUSSIAN_BERNOULLI => x + r
  | BERNOULLI_BERNOULLI => if r ≤ x then 1 else 0

/-- `sample(prob, type)`, `rbm.cu` lines 106-126: apply the per-element
stochastic operation to every entry, then reset the bias column to `1.0`.
The curand draws are modelled by the oracle `rng i j` (one independent
draw per cell of this call); the tile-local reuse of generator slots only
affects which draws are correlated, not the shape of the computation. -/
def sample (rng : Nat → Nat → ℚ) (t : RBM_TYPE) (prob : Mat) : Mat :=
  fill_bias
    { rows := prob.rows, cols := prob.cols,
      entry := fun i j => sampleOp t (prob.entry i j) (rng i j) }

/-- `up_propagate(W, visible, hidden, type)`, `rbm.cu` lines 128-138:
`hidden = sigmoid(visible * W)` for Bernoulli-Bernoulli, `hidden = visible * W`
(linear) for Gaussian-Bernoulli, then fill the bias column.  The external
`sigmoid` is the oracle parameter `sig`. -/
def up_propagate (sig : ℚ → ℚ) (W visible : Mat) (t : RBM_TYPE) : Mat :=
  match t with
  | BERNOULLI_BERNOULLI => fill_bias (Mat.map sig (Mat.mul visible W))
  | GAUSSIAN_BERNOULLI => fill_bias (Mat.mul visible W)

/-- `down_propagate(W, visible, hidden, type)`, `rbm.cu` lines 140-143:
`visible = sigmoid(hidden * ~W)` unconditionally (the `type` argument is
not consulted), then fill the bias column. -/
def down_propagate (sig : ℚ → ℚ) (W hidden : Mat) (_t : RBM_TYPE) : Mat :=
  fill_bias (Mat.map sig (Mat.mul hidden (Mat.transpose W)))

/-- Modelled from the spec: `linearRegression(x, y, &m, &c)` — ordinary
least-squares fit of the points `(x i, y i)`, returning `(slope, intercept)`. -/
def linearRegression (x y : List ℚ) : ℚ × ℚ :=
  let n : ℚ := x.length
  let sx := x.sum
  let sy := y.sum
  let sxy := ((x.zip y).map fun p => p.1 * p.2).sum
  let sxx := (x.map fun a => a * a).sum
  let m := (n * sxy - sx * sy) / (n * sxx - sx * sx)
  (m, (sy - m * sx) / n)

/-- `getSlope(seq, N)`, `rbm.cu` lines 281-294: regress the last `N`
entries of `seq` against the x-axis `[N-1, ..., 1, 0]` and return the
fitted slope. -/
def getSlope (seq : List ℚ) (N : Nat) : ℚ :=
  (linearRegression
    ((List.range N).map fun i => ((N - 1 - i : Nat) : ℚ))
    ((List.range N).map fun i => seq.getD (seq.length - N + i) 0)).1

/-- One contrastive-divergence (CD-1) mini-batch step, `rbm.cu` lines
189-216, in statement order: fetch the visible batch and fill its bias
column, up-propagate to `h1`, compute `positive = ~v1 * h1`, sample `h1`
in place, down-propagate to `v2` and up-propagate to `h2`, compute
`negative = ~v2 * h2`, and update `W += (learning_rate / batchSize) * (positive - negative)`
with the fixed `batchSize = 1024` of line 165.  Returns the updated weight
matrix together with the squared reconstruction error `pow(nrm2(v1 - v2), 2)`
that line 216 adds to the epoch error. -/
def cdBatchUpdate (sig : ℚ → ℚ) (rngB : Nat → Nat → ℚ) (t : RBM_TYPE)
    (learning_rate : ℚ) (data W : Mat) (offset width : Nat) : Mat × ℚ :=
  let v1 := fill_bias (getBatchData data offset width)
  let h1 := up_propagate sig W v1 t
  let positive := Mat.mul (Mat.transpose v1) h1
  let h1s := sample rngB t h1
  let v2 := down_propagate sig W h1s t
  let h2 := up_propagate sig W v2 t
  let negative := Mat.mul (Mat.transpose v2) h2
  let lr := learning_rate / 1024
  let dW := Mat.smul lr (Mat.sub positive negative)
  (Mat.add W dW, Mat.sqNorm (Mat.sub v1 v2))

/-- The inner mini-batch loop of one epoch, `rbm.cu` lines 188-217:
fold `cdBatchUpdate` over the batch partition, threading the weight matrix
and accumulating the epoch error.  `k` numbers the batches so that the
random oracle `rngB k` supplies the draws of batch `k`. -/
def runBatchesAux (sig : ℚ → ℚ) (rngB : Nat → Nat → Nat → ℚ) (t : RBM_TYPE)
    (lr : ℚ) (data : Mat) : List (Nat × Nat) → Nat → Mat × ℚ → Mat × ℚ
  | [], _, acc => acc
  | b :: bs, k, acc =>
    runBatchesAux sig rngB t lr data bs (k + 1)
      ((cdBatchUpdate sig (rngB k) t lr data acc.1 b.1 b.2).1,
       acc.2 + (cdBatchUpdate sig (rngB k) t lr data acc.1 b.1 b.2).2)

/-- One full epoch of `rbmTrain`, `rbm.cu` lines 186-219: run all
mini-batches, then form the per-epoch trajectory entry
`sqrt(error) / nData` of line 219.  The external `sqrt` is the oracle
`sqrtQ`; `rng e` supplies the random draws of epoch `e`. -/
def rbmEpochStep (sig sqrtQ : ℚ → ℚ) (rng : Nat → Nat → Nat → Nat → ℚ)
    (t : RBM_TYPE) (lr : ℚ) (data : Mat) (e : Nat) (W : Mat) : Mat × ℚ :=
  ((runBatchesAux sig (rng e) t lr data (batchList 1024 data.cols) 0 (W, 0)).1,
   sqrtQ (runBatchesAux sig (rng e) t lr data (batchList 1024 data.cols) 0 (W, 0)).2
     / (data.cols : ℚ))

/-- The epoch loop of `rbmTrain`, `rbm.cu` lines 184-236, with
`minEpoch = 5`, `maxEpoch = 128` (line 172).  Each iteration runs one
epoch, appends its error to the trajectory, records `initialSlope` at
epoch 5 (lines 221-222), and for `epoch > 5` breaks as soon as
`abs(getSlope(errors, 5) / initialSlope) < threshold` (lines 224-235).
Returns the weight matrix, the error trajectory, and the number of epochs
executed (`epoch + 1` on break; `fuel` exhaustion corresponds to reaching
`maxEpoch`). -/
def rbmLoop (step : Nat → Mat → Mat × ℚ) (threshold : ℚ) :
    Nat → Nat → Mat → List ℚ → ℚ → Mat × List ℚ × Nat
  | 0, e, W, errs, _ => (W, errs, e)
  | fuel + 1, e, W, errs, islope =>
    let q := step e W
    let errs' := errs ++ [q.2]
    let islope' := if e = 5 then getSlope errs' 5 else islope
    if 5 < e ∧ |getSlope errs' 5 / islope'| < threshold then (q.1, errs', e + 1)
    else rbmLoop step threshold fuel (e + 1) q.1 errs' islope'

/-- The initial weight matrix `mat W(input_dim, nHiddenUnits + 1)` of
`rbm.cu` line 169; the `ext::randn` draws of line 170 are supplied by the
oracle `winit`. -/
def rbmInitW (data : Mat) (nHiddenUnits : Nat) (winit : Nat → Nat → ℚ) : Mat :=
  { rows := data.rows, cols := nHiddenUnits + 1, entry := winit }

/-- The training loop of `rbmTrain` after the precondition switch:
`rbm.cu` lines 165-236 (epoch loop over the initial weights, threshold
check, trajectory accumulation). -/
def rbmCore (sig sqrtQ : ℚ → ℚ) (rng : Nat → Nat → Nat → Nat → ℚ)
    (winit : Nat → Nat → ℚ) (data : Mat) (nHiddenUnits : Nat)
    (threshold : ℚ) (t : RBM_TYPE) (learning_rate : ℚ) : Mat × List ℚ × Nat :=
  rbmLoop (rbmEpochStep sig sqrtQ rng t learning_rate data) threshold
    128 0 (rbmInitW data nHiddenUnits winit) [] 0

/-- `rbmTrain(data, nHiddenUnits, threshold, type, learning_rate)`,
`rbm.cu` lines 145-243.  For Bernoulli-Bernoulli data the assert of line
152 must hold before anything else runs (modelled as `Except.error`,
returning no weight matrix); for Gaussian-Bernoulli the learning rate is
divided by 100 (line 161).  Besides the weight matrix (the only C++ return
value) the embedding also returns the observable error trajectory and the
epoch count that line 240 reports. -/
def rbmTrain (sig sqrtQ : ℚ → ℚ) (rng : Nat → Nat → Nat → Nat → ℚ)
    (winit : Nat → Nat → ℚ) (data : Mat) (nHiddenUnits : Nat)
    (threshold : ℚ) (t : RBM_TYPE) (learning_rate : ℚ) :
    Except String (Mat × List ℚ × Nat) :=
  match t with
  | BERNOULLI_BERNOULLI =>
    if Mat.inRange01 data then
      Except.ok (rbmCore sig sqrtQ rng winit data nHiddenUnits threshold
        BERNOULLI_BERNOULLI learning_rate)
    else
      Except.error "assert failed: Bernoulli visible units out of range"
  | GAUSSIAN_BERNOULLI =>
    Except.ok (rbmCore sig sqrtQ rng winit data nHiddenUnits threshold
      GAUSSIAN_BERNOULLI (learning_rate / 100))

/-- The first `n` epochs of the trainer run without the early-stopping
break: epoch `k` maps the weights with `step k` and appends its error to
the trajectory.  Used to characterise what `rbmLoop` computes. -/
def runEpochs (step : Nat → Mat → Mat × ℚ) : Nat → Mat → Mat × List ℚ
  | 0, W0 => (W0, [])
  | n + 1, W0 =>
    ((step n (runEpochs step n W0).1).1,
     (runEpochs step n W0).2 ++ [(step n (runEpochs step n W0).1).2])

/-- First index `e` in `[start, start + fuel)` with `p e = true`, plus
one; `start + fuel` if there is none.  Mirrors the break of the epoch
loop: the loop executes up to and including the first stopping epoch. -/
def stopSearch (p : Nat → Bool) : Nat → Nat → Nat
  | 0, e => e
  | fuel + 1, e => if p e then e + 1 else stopSearch p fuel (e + 1)

/-- The stopping test of `rbm.cu` lines 224-234 expressed over the
unbroken run: at epoch `e > 5` the loop compares
`abs(currentSlope / initialSlope)` with the threshold, where
`currentSlope` regresses the last 5 of the first `e + 1` trajectory
entries and `initialSlope` was recorded at epoch 5 over the first 6. -/
def stopP (step : Nat → Mat → Mat × ℚ) (threshold : ℚ) (W0 : Mat) (e : Nat) : Bool :=
  decide (5 < e) &&
    decide (|getSlope (runEpochs step (e + 1) W0).2 5 /
              getSlope (runEpochs step 6 W0).2 5| < threshold)

/-- The number of epochs the trainer executes: the first epoch, if any,
at which the slope-ratio test fires (plus one, since that epoch completes),
capped at `maxEpoch = 128`. -/
def firstStopEpoch (step : Nat → Mat → Mat × ℚ) (threshold : ℚ) (W0 : Mat) : Nat :=
  stopSearch (stopP step threshold W0) 128 0

/-- The number of epochs a full `rbmCore` run executes. -/
def rbmEpochCount (sig sqrtQ : ℚ → ℚ) (rng : Nat → Nat → Nat → Nat → ℚ)
    (winit : Nat → Nat → ℚ) (data : Mat) (nHiddenUnits : Nat)
    (threshold : ℚ) (t : RBM_TYPE) (lr : ℚ) : Nat :=
  firstStopEpoch (rbmEpochStep sig sqrtQ rng t lr data) threshold
    (rbmInitW data nHiddenUnits winit)

/-- One batched copy of the forward pass, `rbm.cu` lines 26-30: the
transposed activations `fout` of the batch starting at `offset` are copied
into columns `[offset, offset + fout.rows)` of the host result `Y`. -/
def writeBatchCols (Y : Mat) (offset : Nat) (fout : Mat) : Mat :=
  { rows := Y.rows, cols := Y.cols,
    entry := fun i j =>
      if offset ≤ j ∧ j < offset + fout.rows then (Mat.transpose fout).entry i (j - offset)
      else Y.entry i j }

/-- `batchFeedForwarding(X, w)`, `rbm.cu` lines 16-33: transform the whole
dataset through trained weights with batch size 2048, sigmoid activation
and bias fill, assembling the host matrix `Y(w.getCols(), nData)` column
range by column range. -/
def batchFeedForwarding (sig : ℚ → ℚ) (X w : Mat) : Mat :=
  (batchList 2048 X.cols).foldl
    (fun Y b =>
      writeBatchCols Y b.1
        (fill_bias (Mat.map sig (Mat.mul (getBatchData X b.1 b.2) w))))
    { rows := w.cols, cols := X.cols, entry := fun _ _ => 0 }

/-- The layer loop of `initStackedRBM`, `rbm.cu` lines 43-50, threading
the mutable `type` variable exactly as the C++ does: at layer `i > 0` a
Gaussian-Bernoulli `type` is overwritten with `BERNOULLI_BERNOULLI` before
use, and the (possibly overwritten) value flows into the next iteration.
`fuel` is the number of remaining layers (`weights.size() - i`), and an
assert failure inside `rbmTrain` aborts the whole run. -/
def stackGo (sig sqrtQ : ℚ → ℚ) (rngL : Nat → Nat → Nat → Nat → Nat → ℚ)
    (winitL : Nat → Nat → Nat → ℚ) (dims : List Nat) (threshold lr : ℚ) :
    Nat → Nat → RBM_TYPE → Mat → Except String (List Mat)
  | 0, _, _, _ => Except.ok []
  | fuel + 1, i, t, X =>
    let t' := if t = GAUSSIAN_BERNOULLI ∧ 0 < i then BERNOULLI_BERNOULLI else t
    match rbmTrain sig sqrtQ (rngL i) (winitL i) X (dims.getD (i + 1) 0) threshold t' lr with
    | Except.error msg => Except.error msg
    | Except.ok r =>
      match stackGo sig sqrtQ rngL winitL dims threshold lr fuel (i + 1) t'
          (batchFeedForwarding sig X r.1) with
      | Except.error msg => Except.error msg
      | Except.ok ws => Except.ok (r.1 :: ws)

/-- `initStackedRBM(data, dims, slopeThres, type, learning_rate)`,
`rbm.cu` lines 35-53: train `dims.size() - 1` RBM layers, feeding each
layer's batched forward pass to the next.  `X` models `data.getX()`;
`rngL i` and `winitL i` supply the random draws of layer `i`. -/
def initStackedRBM (sig sqrtQ : ℚ → ℚ) (rngL : Nat → Nat → Nat → Nat → Nat → ℚ)
    (winitL : Nat → Nat → Nat → ℚ) (X : Mat) (dims : List Nat)
    (threshold : ℚ) (t : RBM_TYPE) (lr : ℚ) : Except String (List Mat) :=
  stackGo sig sqrtQ rngL winitL dims threshold lr (dims.length - 1) 0 t X

/-- The CD-1 mini-batch step exactly as §4.4 of the spec words it: fetch
visible batch and append bias, `up_propagate` to `h1`, `positive = visibleᵗ × h1`,
stochastically sample `h1` in place, `down_propagate` to `v2`,
`up_propagate(v2)` to `h2`, `negative = v2ᵗ × h2`,
`W += (learningRate / batchSize) × (positive − negative)`, and the batch's
contribution `‖v1 − v2‖₂²` to the epoch error. -/
def cd1SpecStep (sig : ℚ → ℚ) (rngB : Nat → Nat → ℚ) (t : RBM_TYPE)
    (learningRate batchSize : ℚ) (data W : Mat) (offset width : Nat) : Mat × ℚ :=
  let visible := fill_bias (getBatchData data offset width)
  let h1 := up_propagate sig W visible t
  let positive := Mat.mul (Mat.transpose visible) h1
  let h1s := sample rngB t h1
  let v2 := down_propagate sig W h1s t
  let h2 := up_propagate sig W v2 t
  let negative := Mat.mul (Mat.transpose v2) h2
  (Mat.add W (Mat.smul (learningRate / batchSize) (Mat.sub positive negative)),
   Mat.sqNorm (Mat.sub visible v2))

/-- The spec's epoch body, §4.4 steps 1-2: iterate the CD-1 step over the
fixed-order partition into batches of size 1024, accumulating the epoch
error. -/
def cd1SpecBatches (sig : ℚ → ℚ) (rngB : Nat → Nat → Nat → ℚ) (t : RBM_TYPE)
    (lr : ℚ) (data : Mat) : List (Nat × Nat) → Nat → Mat × ℚ → Mat × ℚ
  | [], _, acc => acc
  | b :: bs, k, acc =>
    cd1SpecBatches sig rngB t lr data bs (k + 1)
      ((cd1SpecStep sig (rngB k) t lr 1024 data acc.1 b.1 b.2).1,
       acc.2 + (cd1SpecStep sig (rngB k) t lr 1024 data acc.1 b.1 b.2).2)

/-- The spec's epoch, §4.4 steps 1-3: run all mini-batches, then append
`sqrt(totalEpochError) / datasetSize` to the trajectory. -/
def cd1EpochSpec (sig sqrtQ : ℚ → ℚ) (rngB : Nat → Nat → Nat → ℚ) (t : RBM_TYPE)
    (lr : ℚ) (data : Mat) (W : Mat) : Mat × ℚ :=
  ((cd1SpecBatches sig rngB t lr data (batchList 1024 data.cols) 0 (W, 0)).1,
   sqrtQ (cd1SpecBatches sig rngB t lr data (batchList 1024 data.cols) 0 (W, 0)).2
     / (data.cols : ℚ))

/-- The layer type assignment exactly as §4.6 of the spec words it:
`type = firstLayerType` only when `i = 0`; for all `i > 0` the type is
forced to `BERNOULLI_BERNOULLI`. -/
def specLayerType (firstLayerType : RBM_TYPE) (i : Nat) : RBM_TYPE :=
  if i = 0 then firstLayerType else BERNOULLI_BERNOULLI

/-- The stack loop as §4.6 of the spec words it: layer `i` is trained with
`specLayerType firstLayerType i`, with no mutable type threading. -/
def stackGoSpec (sig sqrtQ : ℚ → ℚ) (rngL : Nat → Nat → Nat → Nat → Nat → ℚ)
    (winitL : Nat → Nat → Nat → ℚ) (dims : List Nat) (threshold lr : ℚ)
    (firstLayerType : RBM_TYPE) : Nat → Nat → Mat → Except String (List Mat)
  | 0, _, _ => Except.ok []
  | fuel + 1, i, X =>
    match rbmTrain sig sqrtQ (rngL i) (winitL i) X (dims.getD (i + 1) 0) threshold
        (specLayerType firstLayerType i) lr with
    | Except.error msg => Except.error msg
    | Except.ok r =>
      match stackGoSpec sig sqrtQ rngL winitL dims threshold lr firstLayerType fuel (i + 1)
          (batchFeedForwarding sig X r.1) with
      | Except.error msg => Except.error msg
      | Except.ok ws => Except.ok (r.1 :: ws)

/-- The stack orchestrator as the spec words it (§4.6). -/
def initStackedRBMSpec (sig sqrtQ : ℚ → ℚ) (rngL : Nat → Nat → Nat → Nat → Nat → ℚ)
    (winitL : Nat → Nat → Nat → ℚ) (X : Mat) (dims : List Nat)
    (threshold : ℚ) (t : RBM_TYPE) (lr : ℚ) : Except String (List Mat) :=
  stackGoSpec sig sqrtQ rngL winitL dims threshold lr t (dims.length - 1) 0 X

/-- The weight-matrix shapes the spec promises for a stack over `dims`:
matrix `k` has shape `(dims[k] + 1) × (dims[k+1] + 1)`. -/
def stackShapes (dims : List Nat) : List (Nat × Nat) :=
  (List.range (dims.length - 1)).map fun k => (dims.getD k 0 + 1, dims.getD (k + 1) 0 + 1)

/-- Whether an embedded run completed without a fatal assert. -/
def exceptOk {α : Type} : Except String α → Bool
  | Except.ok _ => true
  | Except.error _ => false

/-- The successful result of an embedded run, if any. -/
def exceptToOpt {α : Type} : Except String α → Option α
  | Except.ok a => some a
  | Except.error _ => none

/-- The CD-1 statistics difference `positive - negative` of one mini-batch
(`rbm.cu` lines 200 and 210), isolated so the weight update of line 215
can be stated as `W + (learning_rate / 1024) • gradient` for every batch
width. -/
def cdGradient (sig : ℚ → ℚ) (rngB : Nat → Nat → ℚ) (t : RBM_TYPE)
    (data W : Mat) (offset width : Nat) : Mat :=
  let v1 := fill_bias (getBatchData data offset width)
  let h1 := up_propagate sig W v1 t
  let h1s := sample rngB t h1
  let v2 := down_propagate sig W h1s t
  let h2 := up_propagate sig W v2 t
  Mat.sub (Mat.mul (Mat.transpose v1) h1) (Mat.mul (Mat.transpose v2) h2)

/-- A concrete `1 × 1` dataset holding the value `1.5`, the spec's example
of Bernoulli-Bernoulli data violating the `[0, 1]` precondition. -/
def outOfRangeData : Mat :=
  { rows := 1, cols := 1, entry := fun _ _ => 3 / 2 }

/-- Concrete sigmoid oracle for witness runs. -/
def cSig : ℚ → ℚ := fun _ => 0

/-- Concrete square-root oracle for witness runs. -/
def cSqrt : ℚ → ℚ := fun q => q

/-- Concrete per-layer random-draw oracle for witness runs. -/
def cRngL : Nat → Nat → Nat → Nat → Nat → ℚ := fun _ _ _ _ _ => 0

/-- Concrete per-layer weight-initialisation oracle for witness runs. -/
def cWinitL : Nat → Nat → Nat → ℚ := fun _ _ _ => 0

/-- A concrete dataset with `10 + 1` feature rows (bias included) and no
samples, for the stack-shape witness over dimensions `[10, 6, 4, 2]`. -/
def cStackX : Mat :=
  { rows := 11, cols := 0, entry := fun _ _ => 0 }

/-- A concrete dataset for the singleton-dimension-list run. -/
def cX9 : Mat :=
  { rows := 1, cols := 0, entry := fun _ _ => 0 }

/-- C3 counterexample: on the error sequence `[10, 8, 6, 4, 2]` with
window 5, `getSlope` does not return `-2.0`.  With the source's x-axis
`[4, 3, 2, 1, 0]` (most recent point at x = 0) the decreasing series lies
exactly on `y = 2·x + 2`, so the ordinary-least-squares slope is `+2`. -/
theorem getSlope_example_not_neg_two : (getSlope [10, 8, 6, 4, 2] 5 = -2) = False := by
  have h : List.range 5 = [0, 1, 2, 3, 4] := rfl
  refine eq_false ?_
  simp [getSlope, linearRegression, h]
  norm_num

/-- C3 (amended): `getSlope(series, windowSize)` is the ordinary
least-squares slope of the last `windowSize` points against the x-axis
`[windowSize-1, ..., 1, 0]`; for `[10, 8, 6, 4, 2]` with window 5 the
fitted slope equals exactly `+2.0` and the fitted intercept exactly
`2.0`. -/
theorem getSlope_ols_values :
    getSlope [10, 8, 6, 4, 2] 5 = 2
    ∧ (linearRegression [4, 3, 2, 1, 0] [10, 8, 6, 4, 2]).2 = 2
    ∧ ∀ (seq : List ℚ) (N : Nat),
        getSlope seq N
          = (linearRegression ((List.range N).map fun i => ((N - 1 - i : Nat) : ℚ))
              ((List.range N).map fun i => seq.getD (seq.length - N + i) 0)).1 := by
  have h : List.range 5 = [0, 1, 2, 3, 4] := rfl
  refine ⟨?_, ?_, fun _ _ => rfl⟩
  · simp [getSlope, linearRegression, h]
    norm_num
  · simp [linearRegression]
    norm_num

/-- C9 counterexample: called with the 1-entry layer-dimension list
`[10]`, the stack orchestrator does not abort — it returns successfully
with an empty weight list, because `initStackedRBM` performs no check on
`dims` (`rbm.cu` lines 35-53 contain no assert). -/
theorem singleton_dims_returns_ok :
    initStackedRBM cSig cSqrt cRngL cWinitL cX9 [10] 1 BERNOULLI_BERNOULLI 0
      = Except.ok [] := rfl

/-- C9 (amended): for every call with a 1-entry layer-dimension list, no
precondition check is performed and the orchestrator returns normally with
an empty weight-matrix list (`weights` has size `dims.size() - 1 = 0` and
the layer loop never runs).  Only a 0-entry list aborts, and then through
the unsigned underflow of `dims.size() - 1` in the weight-vector
allocation, not through a precondition diagnostic. -/
theorem singleton_dims_no_precondition_check (sig sqrtQ : ℚ → ℚ)
    (rngL : Nat → Nat → Nat → Nat → Nat → ℚ) (winitL : Nat → Nat → Nat → ℚ)
    (X : Mat) (d : Nat) (threshold : ℚ) (t : RBM_TYPE) (lr : ℚ) :
    initStackedRBM sig sqrtQ rngL winitL X [d] threshold t lr = Except.ok [] := rfl

/-- C6: immediately after `up_propagate`, `down_propagate` or `sample`,
for either RBM type and any input matrix, every row of the result holds
exactly `1.0` in the designated bias column (the last column): each of the
three ends with `fill_bias` (`rbm.cu` lines 125, 137, 142). -/
theorem bias_column_invariant (sig : ℚ → ℚ) (rng : Nat → Nat → ℚ)
    (W v h p : Mat) (t : RBM_TYPE) (i : Nat) :
    (up_propagate sig W v t).entry i ((up_propagate sig W v t).cols - 1) = 1
    ∧ (down_propagate sig W h t).entry i ((down_propagate sig W h t).cols - 1) = 1
    ∧ (sample rng t p).entry i ((sample rng t p).cols - 1) = 1 := by
  refine ⟨?_, ?_, ?_⟩
  · cases t <;> simp [up_propagate, fill_bias, fillLastColumnWith, Mat.map, Mat.mul]
  · simp [down_propagate, fill_bias, fillLastColumnWith, Mat.map, Mat.mul]
  · simp [sample, fill_bias, fillLastColumnWith]

/-- C5: up-propagation multiplies `visible × W` and applies the sigmoid
exactly when the type is Bernoulli-Bernoulli (the Gaussian-Bernoulli
product stays linear), down-propagation computes
`sigmoid(hidden × Wᵗ)` for both types, and both write `1.0` into the bias
column and produce a fresh output of shape `batch × (dim + 1)`, leaving
their inputs untouched (the embedding is a pure function of `W` and the
input matrix). -/
theorem propagate_formulas (sig : ℚ → ℚ) (W v h : Mat) (t : RBM_TYPE) (i j : Nat) :
    (up_propagate sig W v BERNOULLI_BERNOULLI).entry i j
        = (if j = W.cols - 1 then 1 else sig ((Mat.mul v W).entry i j))
    ∧ (up_propagate sig W v GAUSSIAN_BERNOULLI).entry i j
        = (if j = W.cols - 1 then 1 else (Mat.mul v W).entry i j)
    ∧ (down_propagate sig W h t).entry i j
        = (if j = W.rows - 1 then 1 else sig ((Mat.mul h (Mat.transpose W)).entry i j))
    ∧ (up_propagate sig W v t).rows = v.rows ∧ (up_propagate sig W v t).cols = W.cols
    ∧ (down_propagate sig W h t).rows = h.rows
    ∧ (down_propagate sig W h t).cols = W.rows := by
  refine ⟨rfl, rfl, rfl, ?_, ?_, rfl, rfl⟩ <;> cases t <;> rfl

/-- C7: a Bernoulli-Bernoulli training run succeeds exactly when every
value of the dataset lies in `[0, 1]`; the assert of `rbm.cu` line 152
fires before the weight matrix is even allocated, so a violating run (for
example on data containing `1.5`) returns an error and no weight matrix. -/
theorem bernoulli_range_precondition (sig sqrtQ : ℚ → ℚ)
    (rng : Nat → Nat → Nat → Nat → ℚ) (winit : Nat → Nat → ℚ)
    (data : Mat) (nH : Nat) (threshold lr : ℚ) :
    exceptOk (rbmTrain sig sqrtQ rng winit data nH threshold BERNOULLI_BERNOULLI lr)
        = Mat.inRange01 data
    ∧ rbmTrain sig sqrtQ rng winit outOfRangeData nH threshold BERNOULLI_BERNOULLI lr
        = Except.error "assert failed: Bernoulli visible units out of range" := by
  constructor
  · cases hr : Mat.inRange01 data <;> simp [rbmTrain, hr, exceptOk]
  · have hr : Mat.inRange01 outOfRangeData = false := by
      simp [Mat.inRange01, outOfRangeData]
      norm_num
    simp [rbmTrain, hr]

/-- The source's mini-batch fold and the spec's CD-1 fold coincide batch
by batch. -/
theorem runBatchesAux_eq_spec (sig : ℚ → ℚ) (rngB : Nat → Nat → Nat → ℚ)
    (t : RBM_TYPE) (lr : ℚ) (data : Mat) :
    ∀ (bs : List (Nat × Nat)) (k : Nat) (acc : Mat × ℚ),
      runBatchesAux sig rngB t lr data bs k acc
        = cd1SpecBatches sig rngB t lr data bs k acc := by
  intro bs
  induction bs with
  | nil => intro k acc; rfl
  | cons b bs ih =>
    intro k acc
    exact ih (k + 1) _

/-- C1: every mini-batch of every epoch of `rbmTrain` performs exactly the
CD-1 sequence the spec states, in the spec's order — visible batch with
bias, `h1` by up-propagation, `positive = v1ᵗ h1`, in-place sampling of
`h1`, `v2` by down-propagation, `h2` by up-propagation,
`negative = v2ᵗ h2`, `W += (learningRate / batchSize)(positive − negative)`
with `batchSize = 1024`, and `‖v1 − v2‖₂²` added to the epoch error — and
each epoch appends exactly `sqrt(totalEpochError) / datasetSize` to the
trajectory. -/
theorem cd1_step_matches_spec (sig sqrtQ : ℚ → ℚ) (rng : Nat → Nat → Nat → Nat → ℚ)
    (rngB : Nat → Nat → ℚ) (t : RBM_TYPE) (lr : ℚ) (data W : Mat)
    (offset width e : Nat) :
    cdBatchUpdate sig rngB t lr data W offset width
        = cd1SpecStep sig rngB t lr 1024 data W offset width
    ∧ rbmEpochStep sig sqrtQ rng t lr data e W
        = cd1EpochSpec sig sqrtQ (rng e) t lr data W := by
  constructor
  · rfl
  · show _ = cd1EpochSpec sig sqrtQ (rng e) t lr data W
    rw [cd1EpochSpec, rbmEpochStep, runBatchesAux_eq_spec]

/-- C10: the weight-update scaling divisor of the CD-1 step is the fixed
constant `1024` of `rbm.cu` line 165 for every mini-batch width `width`,
including the final narrower batch of a dataset whose column count is not
a multiple of 1024 (for 1500 columns the partition ends with a batch of
width 476, still scaled by `lr / 1024` and not by `lr / 476`, so that
batch's per-sample step is proportionally smaller). -/
theorem batch_divisor_is_constant (sig : ℚ → ℚ) (rngB : Nat → Nat → ℚ)
    (t : RBM_TYPE) (lr : ℚ) (data W : Mat) (offset width : Nat) :
    (cdBatchUpdate sig rngB t lr data W offset width).1
        = Mat.add W (Mat.smul (lr / 1024) (cdGradient sig rngB t data W offset width))
    ∧ batchList 1024 1500 = [(0, 1024), (1024, 476)]
    ∧ ((1 : ℚ) / 1024 = 1 / 476) = False := by
  refine ⟨rfl, by decide, eq_false (by norm_num)⟩

/-- `stopSearch` never returns an index below its starting epoch. -/
theorem le_stopSearch (p : Nat → Bool) : ∀ (fuel e : Nat), e ≤ stopSearch p fuel e := by
  intro fuel
  induction fuel with
  | zero => intro e; exact Nat.le_refl e
  | succ n ih =>
    intro e
    by_cases h : p e = true
    · simp [stopSearch, h]
    · simp only [stopSearch, if_neg h]
      exact Nat.le_trans (Nat.le_succ e) (ih (e + 1))

/-- `stopSearch` never runs past its fuel. -/
theorem stopSearch_le (p : Nat → Bool) : ∀ (fuel e : Nat), stopSearch p fuel e ≤ e + fuel := by
  intro fuel
  induction fuel with
  | zero => intro e; exact Nat.le_refl e
  | succ n ih =>
    intro e
    by_cases h : p e = true
    · simp only [stopSearch, if_pos h]
      omega
    · simp only [stopSearch, if_neg h]
      have := ih (e + 1)
      omega

/-- A false test advances `stopSearch` by one epoch. -/
theorem stopSearch_succ_false {p : Nat → Bool} {e : Nat} (h : p e = false) (fuel : Nat) :
    stopSearch p (fuel + 1) e = stopSearch p fuel (e + 1) := by
  simp [stopSearch, h]

/-- The epoch loop with early stopping computes exactly the unbroken run
cut at the first stopping epoch: starting from epoch `e` with the state of
the unbroken run, `rbmLoop` returns the weights and trajectory of the
unbroken run at epoch `stopSearch (stopP ...) fuel e`, together with that
epoch count. -/
theorem rbmLoop_eq_runEpochs (step : Nat → Mat → Mat × ℚ) (threshold : ℚ) (W0 : Mat) :
    ∀ (fuel e : Nat) (islope : ℚ),
      (5 < e → islope = getSlope (runEpochs step 6 W0).2 5) →
      rbmLoop step threshold fuel e (runEpochs step e W0).1 (runEpochs step e W0).2 islope
        = ((runEpochs step (stopSearch (stopP step threshold W0) fuel e) W0).1,
           (runEpochs step (stopSearch (stopP step threshold W0) fuel e) W0).2,
           stopSearch (stopP step threshold W0) fuel e) := by
  intro fuel
  induction fuel with
  | zero => intro e islope _; rfl
  | succ n ih =>
    intro e islope hislope
    have hunfold : rbmLoop step threshold (n + 1) e
        (runEpochs step e W0).1 (runEpochs step e W0).2 islope
        = if 5 < e ∧ |getSlope (runEpochs step (e + 1) W0).2 5 /
              (if e = 5 then getSlope (runEpochs step (e + 1) W0).2 5 else islope)| < threshold
          then ((runEpochs step (e + 1) W0).1, (runEpochs step (e + 1) W0).2, e + 1)
          else rbmLoop step threshold n (e + 1)
                 (runEpochs step (e + 1) W0).1 (runEpochs step (e + 1) W0).2
                 (if e = 5 then getSlope (runEpochs step (e + 1) W0).2 5 else islope) := rfl
    rw [hunfold]
    by_cases h5 : 5 < e
    · have he5 : e ≠ 5 := by omega
      have hisl : islope = getSlope (runEpochs step 6 W0).2 5 := hislope h5
      simp only [if_neg he5]
      by_cases hlt : |getSlope (runEpochs step (e + 1) W0).2 5 /
          getSlope (runEpochs step 6 W0).2 5| < threshold
      · have hcond : 5 < e ∧ |getSlope (runEpochs step (e + 1) W0).2 5 / islope| < threshold :=
          ⟨h5, by rw [hisl]; exact hlt⟩
        rw [if_pos hcond]
        have hp : stopP step threshold W0 e = true := by
          simp [stopP, h5, hlt]
        have hss : stopSearch (stopP step threshold W0) (n + 1) e = e + 1 := by
          simp [stopSearch, hp]
        rw [hss]
      · have hcond : ¬ (5 < e ∧ |getSlope (runEpochs step (e + 1) W0).2 5 / islope| < threshold) := by
          intro hc
          exact hlt (by rw [← hisl]; exact hc.2)
        rw [if_neg hcond]
        have hp : stopP step threshold W0 e = false := by
          simp [stopP, h5, hlt]
        rw [stopSearch_succ_false hp n]
        exact ih (e + 1) islope (fun _ => hisl)
    · have hcond : ¬ (5 < e ∧ |getSlope (runEpochs step (e + 1) W0).2 5 /
          (if e = 5 then getSlope (runEpochs step (e + 1) W0).2 5 else islope)| < threshold) :=
        fun hc => h5 hc.1
      rw [if_neg hcond]
      have hp : stopP step threshold W0 e = false := by
        simp [stopP, h5]
      rw [stopSearch_succ_false hp n]
      refine ih (e + 1) _ ?_
      intro h6
      have he : e = 5 := by omega
      subst he
      simp

/-- The unbroken run appends exactly one trajectory entry per epoch. -/
theorem runEpochs_length (step : Nat → Mat → Mat × ℚ) (W0 : Mat) :
    ∀ n : Nat, (runEpochs step n W0).2.length = n := by
  intro n
  induction n with
  | zero => rfl
  | succ k ih => simp [runEpochs, ih]

/-- The stopping test cannot fire during the first six epochs
(`epoch > minEpoch` with `minEpoch = 5`), so at least six epochs run. -/
theorem firstStopEpoch_ge_six (step : Nat → Mat → Mat × ℚ) (threshold : ℚ) (W0 : Mat) :
    6 ≤ firstStopEpoch step threshold W0 := by
  have hp : ∀ e, e < 6 → stopP step threshold W0 e = false := by
    intro e he
    have : decide (5 < e) = false := by
      simp
      omega
    simp [stopP, this]
  have s0 : firstStopEpoch step threshold W0
      = stopSearch (stopP step threshold W0) 127 1 := stopSearch_succ_false (hp 0 (by omega)) 127
  have s1 : stopSearch (stopP step threshold W0) 127 1
      = stopSearch (stopP step threshold W0) 126 2 := stopSearch_succ_false (hp 1 (by omega)) 126
  have s2 : stopSearch (stopP step threshold W0) 126 2
      = stopSearch (stopP step threshold W0) 125 3 := stopSearch_succ_false (hp 2 (by omega)) 125
  have s3 : stopSearch (stopP step threshold W0) 125 3
      = stopSearch (stopP step threshold W0) 124 4 := stopSearch_succ_false (hp 3 (by omega)) 124
  have s4 : stopSearch (stopP step threshold W0) 124 4
      = stopSearch (stopP step threshold W0) 123 5 := stopSearch_succ_false (hp 4 (by omega)) 123
  have s5 : stopSearch (stopP step threshold W0) 123 5
      = stopSearch (stopP step threshold W0) 122 6 := stopSearch_succ_false (hp 5 (by omega)) 122
  rw [s0, s1, s2, s3, s4, s5]
  exact le_stopSearch _ 122 6

/-- The trainer never runs past `maxEpoch = 128`. -/
theorem firstStopEpoch_le_128 (step : Nat → Mat → Mat × ℚ) (threshold : ℚ) (W0 : Mat) :
    firstStopEpoch step threshold W0 ≤ 128 :=
  stopSearch_le _ 128 0

/-- C2: every `rbmTrain` epoch loop terminates with
`rbmEpochCount ∈ [5, 128]` epochs: the loop equals the unbroken run
`runEpochs` cut at `firstStopEpoch` — the first epoch `e > 5` at which
`|currentSlope / initialSlope| < slopeThreshold`, where `initialSlope` is
the 5-point regression slope recorded at epoch 5 (over the first six
trajectory entries) and `currentSlope` regresses the last 5 entries, with
the unconditional cap `maxEpoch = 128` — and the error trajectory, built
by one append per epoch and never rewritten, has length exactly
`rbmEpochCount`. -/
theorem rbm_epoch_loop_characterization (sig sqrtQ : ℚ → ℚ)
    (rng : Nat → Nat → Nat → Nat → ℚ) (winit : Nat → Nat → ℚ) (data : Mat)
    (nH : Nat) (threshold : ℚ) (t : RBM_TYPE) (lr : ℚ) :
    rbmCore sig sqrtQ rng winit data nH threshold t lr
      = ((runEpochs (rbmEpochStep sig sqrtQ rng t lr data)
            (rbmEpochCount sig sqrtQ rng winit data nH threshold t lr)
            (rbmInitW data nH winit)).1,
         (runEpochs (rbmEpochStep sig sqrtQ rng t lr data)
            (rbmEpochCount sig sqrtQ rng winit data nH threshold t lr)
            (rbmInitW data nH winit)).2,
         rbmEpochCount sig sqrtQ rng winit data nH threshold t lr)
    ∧ 5 ≤ rbmEpochCount sig sqrtQ rng winit data nH threshold t lr
    ∧ rbmEpochCount sig sqrtQ rng winit data nH threshold t lr ≤ 128
    ∧ (runEpochs (rbmEpochStep sig sqrtQ rng t lr data)
         (rbmEpochCount sig sqrtQ rng winit data nH threshold t lr)
         (rbmInitW data nH winit)).2.length
        = rbmEpochCount sig sqrtQ rng winit data nH threshold t lr := by
  refine ⟨?_, ?_, firstStopEpoch_le_128 _ _ _, runEpochs_length _ _ _⟩
  · exact rbmLoop_eq_runEpochs (rbmEpochStep sig sqrtQ rng t lr data) threshold
      (rbmInitW data nH winit) 128 0 0 (fun h => absurd h (by omega))
  · exact Nat.le_trans (by omega) (firstStopEpoch_ge_six _ _ _)

/-- The mini-batch fold only ever adds `dW` to the weights, so their shape
is preserved (the weight matrix never changes shape after construction). -/
theorem runBatchesAux_shape (sig : ℚ → ℚ) (rngB : Nat → Nat → Nat → ℚ)
    (t : RBM_TYPE) (lr : ℚ) (data : Mat) :
    ∀ (bs : List (Nat × Nat)) (k : Nat) (W : Mat) (err : ℚ),
      (runBatchesAux sig rngB t lr data bs k (W, err)).1.rows = W.rows
      ∧ (runBatchesAux sig rngB t lr data bs k (W, err)).1.cols = W.cols := by
  intro bs
  induction bs with
  | nil => intro k W err; exact ⟨rfl, rfl⟩
  | cons b bs ih =>
    intro k W err
    exact ih (k + 1) (cdBatchUpdate sig (rngB k) t lr data W b.1 b.2).1 _

/-- The unbroken epoch run preserves the weight shape. -/
theorem runEpochs_shape (sig sqrtQ : ℚ → ℚ) (rng : Nat → Nat → Nat → Nat → ℚ)
    (t : RBM_TYPE) (lr : ℚ) (data : Mat) :
    ∀ (n : Nat) (W0 : Mat),
      (runEpochs (rbmEpochStep sig sqrtQ rng t lr data) n W0).1.rows = W0.rows
      ∧ (runEpochs (rbmEpochStep sig sqrtQ rng t lr data) n W0).1.cols = W0.cols := by
  intro n
  induction n with
  | zero => intro W0; exact ⟨rfl, rfl⟩
  | succ k ih =>
    intro W0
    have hs := runBatchesAux_shape sig (rng k) t lr data (batchList 1024 data.cols) 0
      (runEpochs (rbmEpochStep sig sqrtQ rng t lr data) k W0).1 0
    exact ⟨hs.1.trans (ih W0).1, hs.2.trans (ih W0).2⟩

/-- A completed `rbmTrain` run returns a weight matrix of shape
`data.rows × (nHiddenUnits + 1)` — the shape fixed at line 169 of
`rbm.cu`, which no epoch changes. -/
theorem rbmTrain_ok_shape (sig sqrtQ : ℚ → ℚ) (rng : Nat → Nat → Nat → Nat → ℚ)
    (winit : Nat → Nat → ℚ) (data : Mat) (nH : Nat) (threshold : ℚ)
    (t : RBM_TYPE) (lr : ℚ) (r : Mat × List ℚ × Nat)
    (h : rbmTrain sig sqrtQ rng winit data nH threshold t lr = Except.ok r) :
    r.1.rows = data.rows ∧ r.1.cols = nH + 1 := by
  have hcore : ∀ lr' : ℚ,
      (rbmCore sig sqrtQ rng winit data nH threshold t lr').1.rows = data.rows
      ∧ (rbmCore sig sqrtQ rng winit data nH threshold t lr').1.cols = nH + 1 := by
    intro lr'
    have hc : rbmLoop (rbmEpochStep sig sqrtQ rng t lr' data) threshold 128 0
        (rbmInitW data nH winit) [] 0
        = ((runEpochs (rbmEpochStep sig sqrtQ rng t lr' data)
              (stopSearch (stopP (rbmEpochStep sig sqrtQ rng t lr' data) threshold
                (rbmInitW data nH winit)) 128 0) (rbmInitW data nH winit)).1,
           (runEpochs (rbmEpochStep sig sqrtQ rng t lr' data)
              (stopSearch (stopP (rbmEpochStep sig sqrtQ rng t lr' data) threshold
                (rbmInitW data nH winit)) 128 0) (rbmInitW data nH winit)).2,
           stopSearch (stopP (rbmEpochStep sig sqrtQ rng t lr' data) threshold
             (rbmInitW data nH winit)) 128 0) :=
      rbmLoop_eq_runEpochs (rbmEpochStep sig sqrtQ rng t lr' data) threshold
        (rbmInitW data nH winit) 128 0 0 (fun h5 => absurd h5 (by omega))
    have hsh := runEpochs_shape sig sqrtQ rng t lr' data
      (stopSearch (stopP (rbmEpochStep sig sqrtQ rng t lr' data) threshold
        (rbmInitW data nH winit)) 128 0) (rbmInitW data nH winit)
    constructor
    · show (rbmCore sig sqrtQ rng winit data nH threshold t lr').1.rows = data.rows
      rw [rbmCore, hc]
      exact hsh.1
    · show (rbmCore sig sqrtQ rng winit data nH threshold t lr').1.cols = nH + 1
      rw [rbmCore, hc]
      exact hsh.2
  cases t with
  | BERNOULLI_BERNOULLI =>
    rw [rbmTrain] at h
    by_cases hr : Mat.inRange01 data = true
    · rw [if_pos hr] at h
      cases h
      exact hcore lr
    · rw [if_neg hr] at h
      cases h
  | GAUSSIAN_BERNOULLI =>
    rw [rbmTrain] at h
    cases h
    exact hcore (lr / 100)

/-- The batched forward pass produces the host matrix
`Y(w.getCols(), nData)` of `rbm.cu` line 19: the copies never change its
shape. -/
theorem batchFeedForwarding_shape (sig : ℚ → ℚ) (X w : Mat) :
    (batchFeedForwarding sig X w).rows = w.cols
    ∧ (batchFeedForwarding sig X w).cols = X.cols := by
  have hfold : ∀ (l : List (Nat × Nat)) (Y : Mat),
      ((l.foldl (fun Y b =>
          writeBatchCols Y b.1
            (fill_bias (Mat.map sig (Mat.mul (getBatchData X b.1 b.2) w)))) Y).rows = Y.rows
      ∧ (l.foldl (fun Y b =>
          writeBatchCols Y b.1
            (fill_bias (Mat.map sig (Mat.mul (getBatchData X b.1 b.2) w)))) Y).cols = Y.cols) := by
    intro l
    induction l with
    | nil => intro Y; exact ⟨rfl, rfl⟩
    | cons b bs ih =>
      intro Y
      exact ⟨(ih _).1, (ih _).2⟩
  exact hfold (batchList 2048 X.cols) _

/-- Shapes of a successful stack run: starting at layer `i` with input of
`dims[i] + 1` rows, the `fuel` returned weight matrices have shapes
`(dims[i+k] + 1) × (dims[i+k+1] + 1)`. -/
theorem stackGo_shapes (sig sqrtQ : ℚ → ℚ) (rngL : Nat → Nat → Nat → Nat → Nat → ℚ)
    (winitL : Nat → Nat → Nat → ℚ) (dims : List Nat) (threshold lr : ℚ) :
    ∀ (fuel i : Nat) (t : RBM_TYPE) (X : Mat) (ws : List Mat),
      X.rows = dims.getD i 0 + 1 →
      stackGo sig sqrtQ rngL winitL dims threshold lr fuel i t X = Except.ok ws →
      ws.map (fun W => (W.rows, W.cols))
        = (List.range fuel).map
            (fun k => (dims.getD (i + k) 0 + 1, dims.getD (i + k + 1) 0 + 1)) := by
  intro fuel
  induction fuel with
  | zero =>
    intro i t X ws hX h
    cases h
    rfl
  | succ n ih =>
    intro i t X ws hX h
    simp only [stackGo] at h
    cases hr : rbmTrain sig sqrtQ (rngL i) (winitL i) X (dims.getD (i + 1) 0) threshold
        (if t = GAUSSIAN_BERNOULLI ∧ 0 < i then BERNOULLI_BERNOULLI else t) lr with
    | error msg => rw [hr] at h; cases h
    | ok r =>
      rw [hr] at h
      dsimp only at h
      cases hs : stackGo sig sqrtQ rngL winitL dims threshold lr n (i + 1)
          (if t = GAUSSIAN_BERNOULLI ∧ 0 < i then BERNOULLI_BERNOULLI else t)
          (batchFeedForwarding sig X r.1) with
      | error msg => rw [hs] at h; cases h
      | ok ws' =>
        rw [hs] at h
        cases h
        have hwshape := rbmTrain_ok_shape sig sqrtQ (rngL i) (winitL i) X
          (dims.getD (i + 1) 0) threshold _ lr r hr
        have hX' : (batchFeedForwarding sig X r.1).rows = dims.getD (i + 1) 0 + 1 :=
          (batchFeedForwarding_shape sig X r.1).1.trans hwshape.2
        have htail := ih (i + 1) _ (batchFeedForwarding sig X r.1) ws' hX' hs
        rw [List.range_succ_eq_map, List.map_cons, List.map_cons, List.map_map]
        refine List.cons_eq_cons.mpr ⟨?_, ?_⟩
        · rw [hwshape.1, hX, hwshape.2]
          simp
        · rw [htail]
          refine List.map_congr_left ?_
          intro k _
          have h1 : i + 1 + k = i + (k + 1) := by omega
          have h2 : i + 1 + k + 1 = i + (k + 1) + 1 := by omega
          simp only [Function.comp_apply, h1, h2]

/-- From any layer index `i > 0` on, the threaded `type` variable of
`initStackedRBM` behaves exactly like the spec's per-layer assignment:
whatever the incoming value, the layer trains as Bernoulli-Bernoulli. -/
theorem stackGo_eq_spec_pos (sig sqrtQ : ℚ → ℚ) (rngL : Nat → Nat → Nat → Nat → Nat → ℚ)
    (winitL : Nat → Nat → Nat → ℚ) (dims : List Nat) (threshold lr : ℚ) (t0 : RBM_TYPE) :
    ∀ (fuel i : Nat) (t : RBM_TYPE) (X : Mat), 0 < i →
      stackGo sig sqrtQ rngL winitL dims threshold lr fuel i t X
        = stackGoSpec sig sqrtQ rngL winitL dims threshold lr t0 fuel i X := by
  intro fuel
  induction fuel with
  | zero => intro i t X hi; rfl
  | succ n ih =>
    intro i t X hi
    have hi0 : i ≠ 0 := by omega
    have ht : (if t = GAUSSIAN_BERNOULLI ∧ 0 < i then BERNOULLI_BERNOULLI else t)
        = specLayerType t0 i := by
      cases t <;> simp [specLayerType, hi, hi0]
    simp only [stackGo, stackGoSpec, ht]
    cases hr : rbmTrain sig sqrtQ (rngL i) (winitL i) X (dims.getD (i + 1) 0) threshold
        (specLayerType t0 i) lr with
    | error msg => rfl
    | ok r =>
      dsimp only
      rw [ih (i + 1) (specLayerType t0 i) (batchFeedForwarding sig X r.1) (by omega)]

/-- The threaded stack loop started at layer 0 coincides with the spec's
stack loop: layer 0 uses the caller's type, every later layer is
Bernoulli-Bernoulli. -/
theorem stackGo_eq_spec_zero (sig sqrtQ : ℚ → ℚ) (rngL : Nat → Nat → Nat → Nat → Nat → ℚ)
    (winitL : Nat → Nat → Nat → ℚ) (dims : List Nat) (threshold lr : ℚ)
    (fuel : Nat) (t : RBM_TYPE) (X : Mat) :
    stackGo sig sqrtQ rngL winitL dims threshold lr fuel 0 t X
      = stackGoSpec sig sqrtQ rngL winitL dims threshold lr t fuel 0 X := by
  cases fuel with
  | zero => rfl
  | succ n =>
    have ht : (if t = GAUSSIAN_BERNOULLI ∧ 0 < 0 then BERNOULLI_BERNOULLI else t)
        = specLayerType t 0 := by
      cases t <;> simp [specLayerType]
    simp only [stackGo, stackGoSpec, ht]
    cases hr : rbmTrain sig sqrtQ (rngL 0) (winitL 0) X (dims.getD (0 + 1) 0) threshold
        (specLayerType t 0) lr with
    | error msg => rfl
    | ok r =>
      dsimp only
      rw [stackGo_eq_spec_pos sig sqrtQ rngL winitL dims threshold lr t n 1
        (specLayerType t 0) (batchFeedForwarding sig X r.1) (by omega)]

/-- C4: whenever the stack orchestrator over layer dimensions
`[d0, ..., dn]` returns (the input having the expected `d0 + 1` feature
rows), it returns exactly `n` weight matrices of shapes
`(d_i + 1) × (d_{i+1} + 1)`; and the run is exactly the spec's stack loop,
in which layer 0 trains with the caller-supplied type and every later
layer with `BERNOULLI_BERNOULLI`, even when the caller supplied
`GAUSSIAN_BERNOULLI`. -/
theorem stack_shapes_and_types (sig sqrtQ : ℚ → ℚ) (rngL : Nat → Nat → Nat → Nat → Nat → ℚ)
    (winitL : Nat → Nat → Nat → ℚ) (X : Mat) (dims : List Nat)
    (threshold : ℚ) (t : RBM_TYPE) (lr : ℚ)
    (hX : X.rows = dims.getD 0 0 + 1) :
    (exceptToOpt (initStackedRBM sig sqrtQ rngL winitL X dims threshold t lr)).map
        (fun ws => ws.map fun W => (W.rows, W.cols))
      = (exceptToOpt (initStackedRBM sig sqrtQ rngL winitL X dims threshold t lr)).map
          (fun _ => stackShapes dims)
    ∧ initStackedRBM sig sqrtQ rngL winitL X dims threshold t lr
        = initStackedRBMSpec sig sqrtQ rngL winitL X dims threshold t lr := by
  constructor
  · cases hr : initStackedRBM sig sqrtQ rngL winitL X dims threshold t lr with
    | error msg => rfl
    | ok ws =>
      have hsh := stackGo_shapes sig sqrtQ rngL winitL dims threshold lr
        (dims.length - 1) 0 t X ws hX hr
      simp only [exceptToOpt, Option.map_some']
      rw [hsh]
      simp [stackShapes]
  · exact stackGo_eq_spec_zero sig sqrtQ rngL winitL dims threshold lr
      (dims.length - 1) t X

/-- A stack run over a dataset with no samples always completes: data with
zero columns vacuously satisfies the Bernoulli range assert, and the
forward pass preserves the zero column count. -/
theorem stackGo_ok_of_cols0 (sig sqrtQ : ℚ → ℚ) (rngL : Nat → Nat → Nat → Nat → Nat → ℚ)
    (winitL : Nat → Nat → Nat → ℚ) (dims : List Nat) (threshold lr : ℚ) :
    ∀ (fuel i : Nat) (t : RBM_TYPE) (X : Mat), X.cols = 0 →
      exceptOk (stackGo sig sqrtQ rngL winitL dims threshold lr fuel i t X) = true := by
  intro fuel
  induction fuel with
  | zero => intro i t X hX; rfl
  | succ n ih =>
    intro i t X hX
    have hrange : Mat.inRange01 X = true := by simp [Mat.inRange01, hX]
    obtain ⟨r, hok⟩ : ∃ r, rbmTrain sig sqrtQ (rngL i) (winitL i) X (dims.getD (i + 1) 0)
        threshold (if t = GAUSSIAN_BERNOULLI ∧ 0 < i then BERNOULLI_BERNOULLI else t) lr
        = Except.ok r := by
      cases hcase : (if t = GAUSSIAN_BERNOULLI ∧ 0 < i then BERNOULLI_BERNOULLI else t) with
      | GAUSSIAN_BERNOULLI => exact ⟨_, rfl⟩
      | BERNOULLI_BERNOULLI =>
        exact ⟨rbmCore sig sqrtQ (rngL i) (winitL i) X (dims.getD (i + 1) 0) threshold
          BERNOULLI_BERNOULLI lr, by simp [rbmTrain, hrange]⟩
    simp only [stackGo]
    rw [hok]
    dsimp only
    have hX' : (batchFeedForwarding sig X r.1).cols = 0 :=
      (batchFeedForwarding_shape sig X r.1).2.trans hX
    have hrec := ih (i + 1) (if t = GAUSSIAN_BERNOULLI ∧ 0 < i then BERNOULLI_BERNOULLI else t)
      (batchFeedForwarding sig X r.1) hX'
    cases hs : stackGo sig sqrtQ rngL winitL dims threshold lr n (i + 1)
        (if t = GAUSSIAN_BERNOULLI ∧ 0 < i then BERNOULLI_BERNOULLI else t)
        (batchFeedForwarding sig X r.1) with
    | error msg => rw [hs] at hrec; exact absurd hrec (by simp [exceptOk])
    | ok ws => rfl

/-- Witness for C4: the concrete stack over dimensions `[10, 6, 4, 2]`
satisfies the row hypothesis, completes, and produces exactly 3 weight
matrices of shapes `11 × 7`, `7 × 5` and `5 × 3`. -/
theorem stack_shapes_and_types_witness :
    cStackX.rows = ([10, 6, 4, 2] : List Nat).getD 0 0 + 1
    ∧ (exceptToOpt (initStackedRBM cSig cSqrt cRngL cWinitL cStackX [10, 6, 4, 2] 1
          BERNOULLI_BERNOULLI 0)).map (fun ws => ws.map fun W => (W.rows, W.cols))
        = some [(11, 7), (7, 5), (5, 3)] := by
  refine ⟨rfl, ?_⟩
  have h := (stack_shapes_and_types cSig cSqrt cRngL cWinitL cStackX [10, 6, 4, 2] 1
    BERNOULLI_BERNOULLI 0 rfl).1
  rw [h]
  have hok : exceptOk (initStackedRBM cSig cSqrt cRngL cWinitL cStackX [10, 6, 4, 2] 1
      BERNOULLI_BERNOULLI 0) = true :=
    stackGo_ok_of_cols0 cSig cSqrt cRngL cWinitL [10, 6, 4, 2] 1 0 3 0
      BERNOULLI_BERNOULLI cStackX rfl
  cases hs : initStackedRBM cSig cSqrt cRngL cWinitL cStackX [10, 6, 4, 2] 1
      BERNOULLI_BERNOULLI 0 with
  | error msg => rw [hs] at hok; exact absurd hok (by simp [exceptOk])
  | ok ws =>
    simp only [exceptToOpt, Option.map_some']
    refine congrArg some ?_
    decide
